import Mathlib

/-!
Shallow embedding of `mtpy/core/edi_object_new.py` (EDI parser/serializer).

Numbers are modelled as exact rationals (`ℚ`): the Python code computes with
IEEE doubles, but every quantity the verified claims touch (token decoding,
sentinel substitution, block shapes, sexagesimal round trips) is exactly
representable, so the rational model is faithful for these properties.
Python exceptions are modelled with `Except PyErr`; a Python method that
mutates `self` becomes a function from the old state to the new state.
String primitives are implemented structurally over `List Char` so that
every definition evaluates inside the kernel.
-/

/-- Python exception classes that the embedded code can raise.
`mtpyError` stands for `mtpy.utils.exceptions.MTpyError_EDI`, `ioError` for
the `IOError` that `open` raises on a missing file, `formatError` for the
position-codec error the spec calls `FormatError`. -/
inductive PyErr : Type
  | keyError
  | valueError
  | typeError
  | indexError
  | ioError
  | mtpyError
  | formatError
deriving DecidableEq, Repr

/-- Strip leading and trailing whitespace from a character list. -/
def chTrim (cs : List Char) : List Char :=
  ((cs.dropWhile Char.isWhitespace).reverse.dropWhile Char.isWhitespace).reverse

/-- Python `str.strip()`. -/
def strTrim (s : String) : String :=
  ⟨chTrim s.data⟩

/-- Tokenizer on whitespace runs (accumulates the current token reversed). -/
def chSplitWsAux : List Char → List Char → List (List Char)
  | [], cur => if cur.isEmpty then [] else [cur.reverse]
  | c :: rest, cur =>
    if c.isWhitespace then
      if cur.isEmpty then chSplitWsAux rest []
      else cur.reverse :: chSplitWsAux rest []
    else chSplitWsAux rest (c :: cur)

/-- Python `str.split()` with no argument on a character list. -/
def pySplitData (cs : List Char) : List String :=
  (chSplitWsAux cs []).map (fun l => ⟨l⟩)

/-- Python `str.split()` with no argument: split on runs of whitespace,
dropping empty tokens. -/
def pySplit (s : String) : List String :=
  pySplitData s.data

/-- Split on a separator character, keeping empty fields (Python
`str.split(sep)` for a one-character separator). -/
def chSplitOnAux (sep : Char) : List Char → List Char → List (List Char)
  | [], cur => [cur.reverse]
  | c :: rest, cur =>
    if c = sep then cur.reverse :: chSplitOnAux sep rest []
    else chSplitOnAux sep rest (c :: cur)

/-- Split a character list on a separator character. -/
def chSplitOn (sep : Char) (cs : List Char) : List (List Char) :=
  chSplitOnAux sep cs []

/-- Python `s.split(sep)` for a one-character separator, on strings. -/
def strSplitOn (sep : Char) (s : String) : List String :=
  (chSplitOn sep s.data).map (fun l => ⟨l⟩)

/-- Python `s.lower()`. -/
def strToLower (s : String) : String :=
  ⟨s.data.map Char.toLower⟩

/-- Python `s.upper()`. -/
def strToUpper (s : String) : String :=
  ⟨s.data.map Char.toUpper⟩

/-- Python `s.find(c) == 0` for a one-character marker. -/
def strStartsWithCh (c : Char) (s : String) : Bool :=
  match s.data with
  | c2 :: _ => c2 = c
  | [] => false

/-- Python `s.find('>=') == 0`. -/
def strStartsWithGtEq (s : String) : Bool :=
  match s.data with
  | c1 :: c2 :: _ => c1 = '>' && c2 = '='
  | _ => false

/-- Python `c in s` for a character: `s.find(c) != -1`. -/
def strContainsCh (c : Char) (s : String) : Bool :=
  s.data.any (fun c2 => c2 = c)

/-- Python `s.replace(c, "")` for a one-character pattern. -/
def strRemoveCh (c : Char) (s : String) : String :=
  ⟨s.data.filter (fun c2 => decide (c2 ≠ c))⟩

/-- Python `len(s)`. -/
def strLen (s : String) : ℕ :=
  s.data.length

/-- Python `s[:n]`. -/
def strTake (s : String) (n : ℕ) : String :=
  ⟨s.data.take n⟩

/-- Python `s[n:]`. -/
def strDrop (s : String) (n : ℕ) : String :=
  ⟨s.data.drop n⟩

/-- Python `needle in hay` substring test. -/
def isSubstrOf (needle hay : String) : Bool :=
  (hay.data.tails).any (fun t => needle.data.isPrefixOf t)

/-- Base-10 value of a digit character list (caller checks `isDigit`). -/
def digitsToNat (cs : List Char) : ℕ :=
  cs.foldl (fun a c => a * 10 + (c.toNat - 48)) 0

/-- All characters are decimal digits. -/
def allDigits (cs : List Char) : Bool :=
  cs.all (fun c => c.isDigit)

/-- Strip one optional leading sign; returns (isNegative, rest). -/
def parseSign : List Char → Bool × List Char
  | '-' :: r => (true, r)
  | '+' :: r => (false, r)
  | r => (false, r)

/-- Unsigned decimal mantissa: digits with at most one dot and at least one
digit overall (`12`, `12.5`, `.5`, `5.`). -/
def parseMantissa? (cs : List Char) : Option ℚ :=
  match chSplitOn '.' cs with
  | [ip] =>
    if allDigits ip && !ip.isEmpty then some (digitsToNat ip) else none
  | [ip, fp] =>
    if allDigits ip && allDigits fp && !(ip.isEmpty && fp.isEmpty) then
      some ((digitsToNat ip : ℚ) + (digitsToNat fp : ℚ) / 10 ^ fp.length)
    else none
  | _ => none

/-- Signed decimal integer (for the exponent field). -/
def parseExp? (cs : List Char) : Option ℤ :=
  let sr := parseSign cs
  if allDigits sr.2 && !sr.2.isEmpty then
    some (if sr.1 then -(digitsToNat sr.2 : ℤ) else (digitsToNat sr.2 : ℤ))
  else none

/-- Model of Python `float(token)` restricted to finite decimal/scientific
literals, returning the exact rational value; `none` models `ValueError`. -/
def parseFloat? (s : String) : Option ℚ :=
  let cs := (chTrim s.data).map Char.toLower
  let sr := parseSign cs
  let signed := fun (q : ℚ) => if sr.1 then -q else q
  match chSplitOn 'e' sr.2 with
  | [m] =>
    (parseMantissa? m).map signed
  | [m, e] =>
    match parseMantissa? m, parseExp? e with
    | some q, some x => some (signed (q * 10 ^ x))
    | _, _ => none
  | _ => none

/-- Python `int(s)`: optional sign and digits after stripping whitespace;
`none` models `ValueError`. -/
def parseInt? (s : String) : Option ℤ :=
  let sr := parseSign (chTrim s.data)
  if allDigits sr.2 && !sr.2.isEmpty then
    some (if sr.1 then -(digitsToNat sr.2 : ℤ) else (digitsToNat sr.2 : ℤ))
  else none

/-- The EDI "no data" sentinel `1.0e32` (`Edi._read_mt`, line 232). -/
def sentinel : ℚ := 10 ^ 32

/-- Token conversion in `Edi._read_mt` (lines 230-235): parse as float,
map the sentinel `1.0e32` to `0.0`, map unparsable tokens to `0.0`. -/
def convert_token (t : String) : ℚ :=
  match parseFloat? t with
  | some v => if v = sentinel then 0 else v
  | none => 0

/-- `data_dict` of `Edi._read_mt`: an association list from block label to
the accumulated numeric values. -/
abbrev DataDict : Type := List (String × List ℚ)

/-- Python `data_dict[key] = v`: replace the binding if present, else add. -/
def dictSet (d : DataDict) (k : String) (v : List ℚ) : DataDict :=
  match d with
  | [] => [(k, v)]
  | (k2, v2) :: rest =>
    if k2 = k then (k, v) :: rest else (k2, v2) :: dictSet rest k v

/-- Python `data_dict[key]` as an optional lookup. -/
def dictGet? (d : DataDict) (k : String) : Option (List ℚ) :=
  match d with
  | [] => none
  | (k2, v2) :: rest => if k2 = k then some v2 else dictGet? rest k

/-- Python `key in data_dict.keys()`. -/
def dictHas (d : DataDict) (k : String) : Bool :=
  (dictGet? d k).isSome

/-- Loop state of the scan in `Edi._read_mt` (lines 211-236): the dict, the
`data_find` flag and the current block `key` (unset is modelled as `""`,
which is never read while `data_find` is false). -/
structure ScanState : Type where
  dict : DataDict
  dataFind : Bool
  key : String
deriving DecidableEq, Repr, Inhabited

/-- One iteration of the line loop in `Edi._read_mt` (lines 213-236).
A line starting with `>` and containing no `!` opens a block when its first
token starts with `z`/`t` or equals `freq` (resetting that key's list) and
closes accumulation otherwise; while `data_find` holds, a line containing
neither `>` nor `!` is tokenized and each token converted. -/
def read_mt_line (st : ScanState) (line : String) : Except PyErr ScanState :=
  if strStartsWithCh '>' line && !(strContainsCh '!' line) then
    match pySplitData (line.data.drop 1) with
    | [] => .error .indexError
    | k :: _ =>
      let key := strToLower k
      if strStartsWithCh 'z' key || strStartsWithCh 't' key ||
         key = "freq" then
        .ok ⟨dictSet st.dict key [], true, key⟩
      else
        .ok ⟨st.dict, false, st.key⟩
  else if st.dataFind && !(strContainsCh '>' line) &&
          !(strContainsCh '!' line) then
    match dictGet? st.dict st.key with
    | none => .error .keyError
    | some l =>
      .ok ⟨dictSet st.dict st.key (l ++ (pySplit line).map convert_token),
           st.dataFind, st.key⟩
  else
    .ok st

/-- The whole scan loop of `Edi._read_mt` over the data lines. -/
def read_mt_scan (lines : List String) : Except PyErr ScanState :=
  lines.foldlM read_mt_line ⟨[], false, ""⟩

/-- NumPy broadcast of a 1-d source into a length-`n` destination slice
(`self.Z.z[:, i, j] = src`): succeeds when the source has length `n` or
length 1 (broadcast), otherwise `ValueError`. -/
def npAssign {α : Type} (n : ℕ) (l : List α) : Option (List α) :=
  if l.length = n then some l
  else
    match l with
    | [x] => some (List.replicate n x)
    | _ => none

/-- NumPy `np.array(re) + np.array(im)*1j`: elementwise complex pairing with
length-1 broadcasting; `none` models the shape-mismatch `ValueError`. -/
def npComplexAdd (re im : List ℚ) : Option (List (ℚ × ℚ)) :=
  if re.length = im.length then some (re.zip im)
  else
    match re, im with
    | [r], _ => some (im.map (fun i => (r, i)))
    | _, [i] => some (re.map (fun r => (r, i)))
    | _, _ => none

/-- Python `data_dict[k]` with `KeyError` on a missing key. -/
def getArr (d : DataDict) (k : String) : Except PyErr (List ℚ) :=
  match dictGet? d k with
  | none => .error .keyError
  | some l => .ok l

/-- Lift a NumPy shape failure (`none`) to `ValueError`. -/
def npOk {α : Type} : Option α → Except PyErr α
  | none => .error .valueError
  | some a => .ok a

/-- One complex column of `Z.z` / `Tipper.tipper`: look up the real and
imaginary blocks, pair them, and broadcast into the length-`nfreq` slice. -/
def complexCol (d : DataDict) (n : ℕ) (kRe kIm : String) :
    Except PyErr (List (ℚ × ℚ)) := do
  let re ← getArr d kRe
  let im ← getArr d kIm
  let c ← npOk (npComplexAdd re im)
  npOk (npAssign n c)

/-- One real column of `Z.zerr` / `Tipper.tippererr`. -/
def realCol (d : DataDict) (n : ℕ) (k : String) : Except PyErr (List ℚ) := do
  let l ← getArr d k
  npOk (npAssign n l)

/-- In-memory transfer-function model: `Z.freq`, the four per-frequency
columns of the 2x2 complex impedance `Z.z` and its variance `Z.zerr`, and
the two columns of the 1x2 complex tipper and its variance. -/
structure MTModel : Type where
  zfreq : List ℚ
  zxx : List (ℚ × ℚ)
  zxy : List (ℚ × ℚ)
  zyx : List (ℚ × ℚ)
  zyy : List (ℚ × ℚ)
  zerrxx : List ℚ
  zerrxy : List ℚ
  zerryx : List ℚ
  zerryy : List ℚ
  tfreq : List ℚ
  tx : List (ℚ × ℚ)
  ty : List (ℚ × ℚ)
  terrx : List ℚ
  terry : List ℚ
deriving DecidableEq, Repr

/-- Array-filling part of `Edi._read_mt` (lines 238-278): read `freq`,
allocate `(nfreq, 2, 2)` zero arrays, assign the twelve impedance columns,
then, only when a `txr.exp` block was found, the six tipper columns;
otherwise the tipper stays zero-filled with shape `(nfreq, 1, 2)`. -/
def read_mt_fill (nfreq : ℕ) (d : DataDict) : Except PyErr MTModel := do
  let freqArr ← getArr d "freq"
  let zxx ← complexCol d nfreq "zxxr" "zxxi"
  let zxy ← complexCol d nfreq "zxyr" "zxyi"
  let zyx ← complexCol d nfreq "zyxr" "zyxi"
  let zyy ← complexCol d nfreq "zyyr" "zyyi"
  let exx ← realCol d nfreq "zxx.var"
  let exy ← realCol d nfreq "zxy.var"
  let eyx ← realCol d nfreq "zyx.var"
  let eyy ← realCol d nfreq "zyy.var"
  if dictHas d "txr.exp" then
    let tx ← complexCol d nfreq "txr.exp" "txi.exp"
    let ty ← complexCol d nfreq "tyr.exp" "tyi.exp"
    let tex ← realCol d nfreq "txvar.exp"
    let tey ← realCol d nfreq "tyvar.exp"
    .ok ⟨freqArr, zxx, zxy, zyx, zyy, exx, exy, eyx, eyy,
         freqArr, tx, ty, tex, tey⟩
  else
    .ok ⟨freqArr, zxx, zxy, zyx, zyy, exx, exy, eyx, eyy,
         freqArr,
         List.replicate nfreq (0, 0), List.replicate nfreq (0, 0),
         List.replicate nfreq 0, List.replicate nfreq 0⟩

/-- `Edi._read_mt` (lines 207-278): scan the data lines into `data_dict`,
then fill the impedance and tipper arrays. -/
def read_mt (nfreq : ℕ) (lines : List String) : Except PyErr MTModel := do
  let st ← read_mt_scan lines
  read_mt_fill nfreq st.dict

/-- `Edi._read_spectra` (lines 280-285): the body only creates an unused
empty local `data_dict`; no attribute of `self` is written and no exception
is raised, so the call leaves the model unpopulated. -/
def read_spectra (_lines : List String) : Option MTModel :=
  none

/-- Shape coercion of `np.zeros((nfreq, 2, 2))` inside `_read_mt`: a
string or `None` frequency count raises `TypeError`, a negative int
`ValueError`. -/
def nfreqNat : Option (Sum ℤ String) → Except PyErr ℕ
  | some (.inl n) => if n < 0 then .error .valueError else .ok n.toNat
  | some (.inr _) => .error .typeError
  | none => .error .typeError

/-- `Edi._read_data` routing (lines 201-205): `spectra` bodies go to the
empty stub `_read_spectra`, `z` bodies to `_read_mt`; any other data type
falls through silently.  `none` in the result means the `Z`/`Tipper`
attributes were left untouched (unpopulated). -/
def read_data (data_type : String) (nfreq : Option (Sum ℤ String))
    (lines : List String) : Except PyErr (Option MTModel) :=
  if data_type = "spectra" then .ok (read_spectra lines)
  else if data_type = "z" then do
    let n ← nfreqNat nfreq
    (read_mt n lines).map some
  else .ok none

/-- One emitted data block of `Edi._write_data_block`: the uppercased label
and rotation annotation of the marker line, the element count, and the
sequence of values handed to the fixed-width `15.6e` formatter (the digit
rendering itself is abstracted: the claims are about which values are
formatted, not about their decimal spelling). -/
structure DataBlock : Type where
  label : String
  rot : Option String
  count : ℕ
  values : List ℚ
deriving DecidableEq, Repr

/-- `Edi._write_data_block` (lines 390-430).  Marker dispatch: a label
containing `z` (and not `zrot`/`trot`) gets `ROT=ZROT`; else one containing
`t` gets `ROT=TROT`; else `freq` and the two rotation labels get a plain
marker; anything else raises `MTpyError_EDI` (the unwritable-block error
the spec calls `FormatError`).  Value loop: an element equal to `0.0` is
replaced by the Header `empty` sentinel unless the label is `zrot`/`trot`. -/
def write_data_block (empty : ℚ) (data_key : String) (arr : List ℚ) :
    Except PyErr DataBlock :=
  let k := strToLower data_key
  let subst := arr.map (fun v => if v = 0 then empty else v)
  if strContainsCh 'z' k && !(k = "zrot" || k = "trot") then
    .ok ⟨strToUpper data_key, some "ZROT", arr.length, subst⟩
  else if strContainsCh 't' k && !(k = "zrot" || k = "trot") then
    .ok ⟨strToUpper data_key, some "TROT", arr.length, subst⟩
  else if k = "freq" then
    .ok ⟨strToUpper data_key, none, arr.length, subst⟩
  else if k = "zrot" || k = "trot" then
    .ok ⟨strToUpper data_key, none, arr.length, arr⟩
  else
    .error .mtpyError

/-- Is the `Except` a success? -/
def exceptIsOk {ε α : Type} : Except ε α → Bool
  | .ok _ => true
  | .error _ => false

/-- The 19 logical block labels the Edi writer ever passes to
`_write_data_block`: `freq`, the two rotation labels (`write_edi_file`
lines 331-358), the twelve `_z_labels` and the six `_t_labels`
(`Edi.__init__` lines 109-115). -/
def recognized_labels : List String :=
  ["freq", "zrot", "trot",
   "zxxr", "zxxi", "zxx.var", "zxyr", "zxyi", "zxy.var",
   "zyxr", "zyxi", "zyx.var", "zyyr", "zyyi", "zyy.var",
   "txr.exp", "txi.exp", "txvar.exp", "tyr.exp", "tyi.exp", "tyvar.exp"]

/-- A value that Python stored either as an `int` or as a raw string. -/
abbrev IntOrStr : Type := Sum ℤ String

/-- Association-list set with replacement, for string-valued attributes. -/
def sdictSet (d : List (String × String)) (k v : String) :
    List (String × String) :=
  match d with
  | [] => [(k, v)]
  | (k2, v2) :: rest =>
    if k2 = k then (k, v) :: rest else (k2, v2) :: sdictSet rest k v

/-- Association-list lookup for string-valued attributes. -/
def sdictGet? (d : List (String × String)) (k : String) : Option String :=
  match d with
  | [] => none
  | (k2, v2) :: rest => if k2 = k then some v2 else sdictGet? rest k

/-- Modelled from the spec (§4.1): `mtpy.utils.format._assert_position_format`
is not under `src/`.  It accepts a decimal numeric string or a
colon-delimited `DD:MM:SS.ss` sexagesimal string (sign on the degree field)
and returns decimal degrees; a colon string with a wrong field count or an
unparsable field raises the error the spec calls `FormatError`. -/
def assert_position_format (_kind : String) (v : String) : Except PyErr ℚ :=
  match parseFloat? v with
  | some q => .ok q
  | none =>
    match strSplitOn ':' (strTrim v) with
    | [d, m, s] =>
      match parseFloat? d, parseFloat? m, parseFloat? s with
      | some dq, some mq, some sq =>
        let dd := |dq| + mq / 60 + sq / 3600
        .ok (if (parseSign d.data).1 then -dd else dd)
      | _, _, _ => .error .formatError
    | _ => .error .formatError

/-- `Header` attribute state (`Header.__init__`, lines 590-627).  `filedate`
is regenerated from the wall clock on write, so it is abstracted to an
optional string.  `empty` starts as the float `1e32`; a value read from a
file is stored verbatim as a string, exactly as `setattr` does.  Unrecognized
keys land in `extras` (the dynamic `setattr` of line 733). -/
structure HeaderS : Type where
  dataid : Option String
  acqby : Option String
  fileby : Option String
  acqdate : Option String
  units : Option String
  filedate : Option String
  loc : Option String
  lat : Option ℚ
  lon : Option ℚ
  elev : Option ℚ
  empty : IntOrStr
  progvers : Option String
  progdate : Option String
  phoenix_edi : Bool
  header_list : Option (List String)
  extras : List (String × String)
deriving DecidableEq, Repr

/-- Defaults of `Header.__init__` (the `empty` default is the float `1e32`,
modelled as the exact integer). -/
def defaultHeader : HeaderS :=
  ⟨none, none, none, none, none, none, none, none, none, none,
   .inl (10 ^ 32 : ℤ), none, none, false, none, []⟩

/-- `Header._validate_header_list` (lines 788-809): strip and unquote each
line, keep only lines longer than one character that split on `=` into
exactly two fields, re-joined as `key=value`. -/
def validate_header_list (hl : List String) : List String :=
  hl.filterMap (fun l =>
    let l2 := strRemoveCh '"' (strTrim l)
    if strLen l2 > 1 then
      match strSplitOn '=' l2 with
      | [k, v] => some (k ++ "=" ++ v)
      | _ => none
    else none)

/-- Scan loop of `Header.get_header_list` (lines 641-658): count marker
lines, toggle on a marker containing `head`, and collect stripped body lines
longer than two characters while inside the first section. -/
def scanHeaderLines : List String → ℕ → Bool → List String → List String
  | [], _, _, acc => acc.reverse
  | line :: rest, count, headFind, acc =>
    if strStartsWithCh '>' line then
      let c2 := count + 1
      let hf := isSubstrOf "head" (strToLower line)
      if c2 = 2 && hf = false then acc.reverse
      else scanHeaderLines rest c2 hf acc
    else if count = 1 && headFind then
      let l := strTrim line
      if strLen l > 2 then scanHeaderLines rest count headFind (l :: acc)
      else scanHeaderLines rest count headFind acc
    else scanHeaderLines rest count headFind acc

/-- `Header.get_header_list` (lines 629-660): with no file name it prints
and returns, leaving `header_list` as it was; with a file name but a missing
file it prints, then still calls `open`, which raises `IOError`. -/
def get_header_list (ediGiven : Bool) (content : Option (List String))
    (prev : Option (List String)) : Except PyErr (Option (List String)) :=
  if !ediGiven then .ok prev
  else
    match content with
    | none => .error .ioError
    | some ls =>
      .ok (some (validate_header_list (scanHeaderLines ls 0 false [])))

/-- The trailing `setattr(self, key, value)` of `Header.read_header` for
keys not rewritten by the elif chain: recognized attribute names update
their field, anything else is stored verbatim in `extras`. -/
def setHeaderAttr (h : HeaderS) (key value : String) : HeaderS :=
  if key = "dataid" then { h with dataid := some value }
  else if key = "acqby" then { h with acqby := some value }
  else if key = "acqdate" then { h with acqdate := some value }
  else if key = "units" then { h with units := some value }
  else if key = "filedate" then { h with filedate := some value }
  else if key = "empty" then { h with empty := .inr value }
  else if key = "progdate" then { h with progdate := some value }
  else { h with extras := sdictSet h.extras key value }

/-- One `key=value` line of `Header.read_header` (lines 696-733).  Note the
Python tests are substring tests (`key in 'latitude'`).  Position fields go
through the codec; a failed elevation parse degrades to `0.0`; location
aliases concatenate onto a prior `loc`; `progvers` flags the Phoenix dialect
when it mentions `mt-editor`; an empty `fileby` becomes `mtpy`. -/
def applyHeaderLine (h : HeaderS) (hline : String) : Except PyErr HeaderS :=
  match strSplitOn '=' hline with
  | k0 :: v0 :: _ =>
    let key := strToLower k0
    let value := strRemoveCh '"' v0
    if isSubstrOf key "latitude" then
      match assert_position_format "lat" value with
      | .error e => .error e
      | .ok q => .ok { h with lat := some q }
    else if isSubstrOf key "longitude" then
      match assert_position_format "lon" value with
      | .error e => .error e
      | .ok q => .ok { h with lon := some q }
    else if isSubstrOf key "elevation" then
      .ok { h with elev := some ((parseFloat? value).getD 0) }
    else if key ∈ ["country", "state", "loc", "location", "prospect"] then
      match h.loc with
      | some prior => .ok { h with loc := some (prior ++ ", " ++ value) }
      | none => .ok { h with loc := some value }
    else if key = "progvers" then
      .ok { h with progvers := some value,
                   phoenix_edi :=
                     h.phoenix_edi ||
                       isSubstrOf "mt-editor" (strToLower value) }
    else if key = "fileby" then
      .ok { h with fileby := some (if value = "" then "mtpy" else value) }
    else
      .ok (setHeaderAttr h key value)
  | _ => .error .indexError

/-- `Header.read_header` (lines 662-733).  An explicit `header_list`
argument is validated and installed; otherwise a file-backed header list is
fetched; if the list is still `None`, Python prints a message and then
falls into `for h_line in self.header_list`, raising `TypeError`. -/
def read_header (arg : Option (List String)) (ediGiven : Bool)
    (content : Option (List String)) (h : HeaderS) :
    Except PyErr HeaderS := do
  let hl0 := match arg with
    | some l => some (validate_header_list l)
    | none => h.header_list
  let hl ← if hl0 = none && ediGiven then get_header_list ediGiven content hl0
           else pure hl0
  match hl with
  | none => .error .typeError
  | some ls => ls.foldlM applyHeaderLine { h with header_list := some ls }

/-- `Information._validate_info_list` (lines 903-920): drop blank lines and
section-marker lines, strip the rest. -/
def validate_info_list (il : List String) : List String :=
  il.filterMap (fun line =>
    if strLen (strTrim line) > 1 then
      if strStartsWithCh '>' line then none else some (strTrim line)
    else none)

/-- Scan loop of `Information.get_info_list` (lines 848-868), including the
Phoenix two-column split (`run information` marker, columns at 0-36 and
38-).  Lines are modelled newline-stripped; thresholds are kept as written.
The first accumulator is the main column, the second the deferred right
column appended after the loop. -/
def scanInfoLines : List String → ℕ → Bool → Bool → List String →
    List String → List String
  | [], _, _, _, acc, p2 => acc.reverse ++ p2.reverse
  | line :: rest, count, infoFind, phx, acc, p2 =>
    if strStartsWithCh '>' line then
      let c2 := count + 1
      let f := isSubstrOf "info" (strToLower line)
      if c2 > 2 && f = false then acc.reverse ++ p2.reverse
      else scanInfoLines rest c2 f phx acc p2
    else if count > 1 && infoFind then
      let phx2 := phx || isSubstrOf "run information" (strToLower line)
      if phx2 && strLen line > 40 then
        scanInfoLines rest count infoFind phx2
          (strTrim (strTake line 37) :: acc) (strTrim (strDrop line 38) :: p2)
      else if strLen (strTrim line) > 1 then
        scanInfoLines rest count infoFind phx2 (strTrim line :: acc) p2
      else scanInfoLines rest count infoFind phx2 acc p2
    else scanInfoLines rest count infoFind phx acc p2

/-- `Information.get_info_list` (lines 831-870): with no file name, or with
a missing file, it prints and returns leaving `info_list` unchanged (this
getter, unlike the header one, returns before opening). -/
def get_info_list (ediGiven : Bool) (content : Option (List String))
    (prev : Option (List String)) : Except PyErr (Option (List String)) :=
  if !ediGiven then .ok prev
  else
    match content with
    | none => .ok prev
    | some ls =>
      .ok (some (validate_info_list (scanInfoLines ls 0 false false [] [])))

/-- `Information.read_info` (lines 872-885): never raises; with nothing to
read it prints and returns with `info_list` still `None`. -/
def read_info (arg : Option (List String)) (ediGiven : Bool)
    (content : Option (List String)) (prev : Option (List String)) :
    Except PyErr (Option (List String)) := do
  let il0 := match arg with
    | some l => some (validate_info_list l)
    | none => prev
  if il0 = none && ediGiven then get_info_list ediGiven content il0
  else pure il0

/-- One entry of `DefineMeasurement.measurement_list`: either a plain
`key=value` body line or the token dictionary of a `>HMEAS`/`>EMEAS`
line. -/
abbrev MeasLine : Type := Sum String (List (String × String))

/-- A channel record: `HMeasurement` or `EMeasurement` keyed by its token
dictionary.  The per-field float coercion of the two `__init__` methods is
kept as the raw strings (no claim touches the field values). -/
inductive Channel : Type
  | hmeas (fields : List (String × String))
  | emeas (fields : List (String × String))
deriving DecidableEq, Repr

/-- `DefineMeasurement` attribute state (`__init__`, lines 1002-1022).
`maxmeas`/`maxrun` default to the ints `7`/`999` but are overwritten
verbatim by `setattr` when read, hence `IntOrStr`. -/
structure DefMeasS : Type where
  measurement_list : Option (List MeasLine)
  maxchan : Option IntOrStr
  maxmeas : IntOrStr
  maxrun : IntOrStr
  refelev : Option ℚ
  reflat : Option ℚ
  reflon : Option ℚ
  reftype : String
  units : String
  channels : List (String × Channel)
  extras : List (String × String)
deriving DecidableEq, Repr

/-- Defaults of `DefineMeasurement.__init__`. -/
def defaultDefMeas : DefMeasS :=
  ⟨none, none, .inl 7, .inl 999, none, none, none, "cartesian", "m", [], []⟩

/-- Token dictionary of a `>HMEAS`/`>EMEAS` line: each space-separated
token after the head splits on `=`; a token without `=` raises
`IndexError`. -/
def parseMeasTokens (toks : List String) :
    Except PyErr (List (String × String)) :=
  toks.foldlM (fun d t =>
    match strSplitOn '=' t with
    | k :: v :: _ => .ok (sdictSet d (strToLower k) v)
    | _ => .error .indexError) []

/-- Scan loop of `DefineMeasurement.get_measurement_lists`
(lines 1038-1068): `>=` markers are counted, `definemeas` toggles the
section; inside it, plain body lines longer than two characters are kept as
strings and `>`-prefixed lines without `!` become token dictionaries. -/
def scanMeasLines : List String → ℕ → Bool → List MeasLine →
    Except PyErr (List MeasLine)
  | [], _, _, acc => .ok acc.reverse
  | line :: rest, count, measFind, acc =>
    if strStartsWithGtEq line then
      let c2 := count + 1
      let mf := isSubstrOf "definemeas" (strToLower line)
      if c2 = 2 && mf = false then .ok acc.reverse
      else scanMeasLines rest c2 mf acc
    else if count = 1 && !(strStartsWithCh '>' line) && measFind then
      let l := strTrim line
      if strLen l > 2 then scanMeasLines rest count measFind (.inl l :: acc)
      else scanMeasLines rest count measFind acc
    else if count = 1 && strStartsWithCh '>' line && measFind then
      if strContainsCh '!' line then scanMeasLines rest count measFind acc
      else
        match pySplit (strTrim line) with
        | [] => scanMeasLines rest count measFind acc
        | _ :: toks =>
          match parseMeasTokens toks with
          | .error e => .error e
          | .ok d => scanMeasLines rest count measFind (.inr d :: acc)
    else scanMeasLines rest count measFind acc

/-- `DefineMeasurement.get_measurement_lists` (lines 1027-1068): with no
file name it prints and returns leaving the list unchanged; with a missing
file it prints and then still opens the file, raising `IOError`. -/
def get_measurement_lists (ediGiven : Bool) (content : Option (List String))
    (prev : Option (List MeasLine)) :
    Except PyErr (Option (List MeasLine)) :=
  if !ediGiven then .ok prev
  else
    match content with
    | none => .error .ioError
    | some ls =>
      match scanMeasLines ls 0 false [] with
      | .error e => .error e
      | .ok l => .ok (some l)

/-- The trailing `setattr` of `read_define_measurement` for keys not caught
by the elif chain. -/
def setMeasAttr (dm : DefMeasS) (key value : String) : DefMeasS :=
  if key = "maxrun" then { dm with maxrun := .inr value }
  else if key = "reftype" then { dm with reftype := value }
  else if key = "units" then { dm with units := value }
  else { dm with extras := sdictSet dm.extras key value }

/-- One entry of the parse loop in `read_define_measurement`
(lines 1104-1135).  String lines: substring-matched keys route reference
positions through the codec and the two `max` counters through `int`
(whose failure propagates as `ValueError`); other keys are `setattr`
verbatim.  Dict lines: `chtype` containing `h` becomes an `HMeasurement`,
else containing `e` an `EMeasurement`, else the unbound local `value`
raises; the channel key is derived from the `id` token (the numeric
reformatting of the id is abstracted to the raw string), with constant
fallback `meas_01` since `m_count` is never incremented. -/
def applyMeasLine (dm : DefMeasS) (ml : MeasLine) : Except PyErr DefMeasS :=
  match ml with
  | .inl line =>
    match strSplitOn '=' line with
    | k0 :: v0 :: _ =>
      let key := strToLower k0
      if isSubstrOf key "reflatitude" then
        match assert_position_format "lat" v0 with
        | .error e => .error e
        | .ok q => .ok { dm with reflat := some q }
      else if isSubstrOf key "reflongitude" then
        match assert_position_format "lon" v0 with
        | .error e => .error e
        | .ok q => .ok { dm with reflon := some q }
      else if isSubstrOf key "refelevation" then
        match assert_position_format "elev" v0 with
        | .error e => .error e
        | .ok q => .ok { dm with refelev := some q }
      else if isSubstrOf key "maxchannels" then
        match parseInt? v0 with
        | none => .error .valueError
        | some n => .ok { dm with maxchan := some (.inl n) }
      else if isSubstrOf key "maxmeasurements" then
        match parseInt? v0 with
        | none => .error .valueError
        | some n => .ok { dm with maxmeas := .inl n }
      else .ok (setMeasAttr dm key v0)
    | _ => .error .indexError
  | .inr d =>
    let key := match sdictGet? d "id" with
      | some idv => "meas_" ++ idv
      | none => "meas_01"
    match sdictGet? d "chtype" with
    | none => .error .keyError
    | some ct =>
      if isSubstrOf "h" (strToLower ct) then
        .ok { dm with channels := (key, Channel.hmeas d) :: dm.channels }
      else if isSubstrOf "e" (strToLower ct) then
        .ok { dm with channels := (key, Channel.emeas d) :: dm.channels }
      else .error .typeError

/-- `DefineMeasurement.read_define_measurement` (lines 1070-1135): with
nothing to read it prints and returns unchanged (before touching the
list), otherwise it folds the parse over the measurement list. -/
def read_define_measurement (arg : Option (List MeasLine)) (ediGiven : Bool)
    (content : Option (List String)) (dm : DefMeasS) :
    Except PyErr DefMeasS := do
  let ml0 := match arg with
    | some l => some l
    | none => dm.measurement_list
  let ml ← if ml0 = none && ediGiven then
      get_measurement_lists ediGiven content ml0
    else pure ml0
  match ml with
  | none => .ok dm
  | some ls => ls.foldlM applyMeasLine { dm with measurement_list := some ls }

/-- `DataSection` attribute state (`__init__`, lines 1327-1345); the
`_kw_list` attributes start as `None` and are set to an int, or to the
stripped unquoted string when `int` fails. -/
structure DataSectS : Type where
  data_type : String
  line_num : ℕ
  data_sect_list : Option (List String)
  ex : Option IntOrStr
  ey : Option IntOrStr
  hx : Option IntOrStr
  hy : Option IntOrStr
  hz : Option IntOrStr
  nfreq : Option IntOrStr
  sectid : Option IntOrStr
  nchan : Option IntOrStr
  maxblks : Option IntOrStr
  extras : List (String × IntOrStr)
deriving DecidableEq, Repr

/-- Defaults of `DataSection.__init__`. -/
def defaultDataSect : DataSectS :=
  ⟨"z", 0, none, none, none, none, none, none, none, none, none, none, []⟩

/-- Scan loop of `DataSection.get_data_sect` (lines 1363-1384): `>=`
markers are counted and indexed; a marker containing `sect` records its
line index and sets the data type from `spect`/`mt`; body lines are
collected only while the section marker was the second `>=` marker.
Returns (collected lines, line index of the sect marker, data type). -/
def scanDataSectLines : List String → ℕ → ℕ → Bool → ℕ → String →
    List String → List String × ℕ × String
  | [], _, _, _, lnum, dtype, acc => (acc.reverse, lnum, dtype)
  | line :: rest, idx, count, find, lnum, dtype, acc =>
    if strStartsWithGtEq line then
      let c2 := count + 1
      if isSubstrOf "sect" (strToLower line) then
        let dt2 := if isSubstrOf "spect" (strToLower line) then "spectra"
                   else if isSubstrOf "mt" (strToLower line) then "z"
                   else dtype
        scanDataSectLines rest (idx + 1) c2 true idx dt2 acc
      else if c2 > 2 then (acc.reverse, lnum, dtype)
      else scanDataSectLines rest (idx + 1) c2 false lnum dtype acc
    else if count = 2 && !(strStartsWithCh '>' line) && find then
      if strLen (strTrim line) > 2 then
        scanDataSectLines rest (idx + 1) count find lnum dtype
          (strTrim line :: acc)
      else scanDataSectLines rest (idx + 1) count find lnum dtype acc
    else scanDataSectLines rest (idx + 1) count find lnum dtype acc

/-- `DataSection.get_data_sect` (lines 1351-1384): raises `MTpyError_EDI`
both when no file name was given and when the file does not exist. -/
def get_data_sect (ediGiven : Bool) (content : Option (List String)) :
    Except PyErr (List String × ℕ × String) :=
  if !ediGiven then .error .mtpyError
  else
    match content with
    | none => .error .mtpyError
    | some ls => .ok (scanDataSectLines ls 0 0 false 0 "z" [])

/-- The `setattr` of `DataSection.read_data_sect`: any key is stored,
recognized or not. -/
def setDataSectAttr (ds : DataSectS) (key : String) (value : IntOrStr) :
    DataSectS :=
  if key = "ex" then { ds with ex := some value }
  else if key = "ey" then { ds with ey := some value }
  else if key = "hx" then { ds with hx := some value }
  else if key = "hy" then { ds with hy := some value }
  else if key = "hz" then { ds with hz := some value }
  else if key = "nfreq" then { ds with nfreq := some value }
  else if key = "sectid" then { ds with sectid := some value }
  else if key = "nchan" then { ds with nchan := some value }
  else if key = "maxblks" then { ds with maxblks := some value }
  else { ds with extras := ds.extras ++ [(key, value)] }

/-- One line of the `read_data_sect` parse loop (lines 1397-1406): lines
without `=` are skipped; the value is `int`-parsed with a stripped,
unquoted string fallback. -/
def applyDataSectLine (ds : DataSectS) (line : String) : DataSectS :=
  match strSplitOn '=' line with
  | k0 :: v0 :: _ =>
    let key := strToLower k0
    let value : IntOrStr := match parseInt? (strTrim v0) with
      | some n => .inl n
      | none => .inr (strRemoveCh '"' (strTrim v0))
    setDataSectAttr ds key value
  | _ => ds

/-- `DataSection.read_data_sect` (lines 1386-1406): an explicit list is
installed verbatim; a file-backed list is fetched only when a file name
exists; with both absent Python falls into `for d_line in None`, raising
`TypeError`. -/
def read_data_sect (arg : Option (List String)) (ediGiven : Bool)
    (content : Option (List String)) (ds : DataSectS) :
    Except PyErr DataSectS := do
  let dl0 := match arg with
    | some l => some l
    | none => ds.data_sect_list
  let r ← if ediGiven && dl0 = none then
      match get_data_sect ediGiven content with
      | .error e => .error e
      | .ok t => pure (some t.1, t.2.1, t.2.2)
    else pure (dl0, ds.line_num, ds.data_type)
  match r.1 with
  | none => .error .typeError
  | some ls =>
    .ok (ls.foldl applyDataSectLine
      { ds with data_sect_list := some ls,
                line_num := r.2.1, data_type := r.2.2 })

/-- The position backfill at the end of `Edi.read_edi_file`
(lines 176-184): each of `lat`, `lon`, `elev` that is still `None` after
header parsing is copied from the DefineMeasurement reference location,
independently; a field that is already set is not touched. -/
def backfill_positions (h : HeaderS) (dm : DefMeasS) : HeaderS :=
  let h1 := match h.lat with
    | none => { h with lat := dm.reflat }
    | some _ => h
  let h2 := match h1.lon with
    | none => { h1 with lon := dm.reflon }
    | some _ => h1
  match h2.elev with
  | none => { h2 with elev := dm.refelev }
  | some _ => h2

/-- The filesystem visible to the Document assembler: a map from path to
the file's newline-stripped lines. -/
structure FileSystem : Type where
  files : List (String × List String)
deriving DecidableEq, Repr

/-- Does the path exist, and with which content? -/
def fsGet? (fs : FileSystem) (p : String) : Option (List String) :=
  match fs.files.find? (fun kv => decide (kv.1 = p)) with
  | some kv => some kv.2
  | none => none

/-- The parsed Document: one state object per section, plus the decoded
transfer-function model (`none` while `Z`/`Tipper` are unpopulated). -/
structure EdiState : Type where
  header : HeaderS
  info : Option (List String)
  defmeas : DefMeasS
  datasect : DataSectS
  mt : Option MTModel
deriving DecidableEq, Repr

/-- `Edi.read_edi_file` (lines 125-186): fail with `MTpyError_EDI` when no
path was given or the path does not exist; construct the four section
objects from the file; decode the data body (`_read_data` re-reads the file
from `Data_sect.line_num + 2`); then backfill unset header positions from
the DefineMeasurement reference location. -/
def read_edi_file (fs : FileSystem) (edi_fn : Option String) :
    Except PyErr EdiState := do
  match edi_fn with
  | none => .error .mtpyError
  | some fn =>
    match fsGet? fs fn with
    | none => .error .mtpyError
    | some content => do
      let h ← read_header none true (some content) defaultHeader
      let info ← read_info none true (some content) none
      let dm ← read_define_measurement none true (some content) defaultDefMeas
      let ds ← read_data_sect none true (some content) defaultDataSect
      let mt ← read_data ds.data_type ds.nfreq
                 (content.drop (ds.line_num + 2))
      .ok ⟨backfill_positions h dm, info, dm, ds, mt⟩

/-- Modelled from the spec (§4.1): the sexagesimal tuple produced on header
write (`mtpy.utils.format.convert_degrees2dms_tuple` is not under `src/`).
Sign flag, whole degrees, whole minutes, and the exact remaining seconds. -/
def convert_degrees2dms_tuple (x : ℚ) : Bool × ℕ × ℕ × ℚ :=
  let a := |x|
  let d := (⌊a⌋).toNat
  let m := (⌊(a - (d : ℚ)) * 60⌋).toNat
  let s := (a - (d : ℚ) - (m : ℚ) / 60) * 3600
  (decide (x < 0), d, m, s)

/-- The rendered `DD:MM:SS.ss` string, modelled field-wise: the sign
character, the degree and minute fields, and the seconds in hundredths
(two decimal places, as the spec's zero-padded `SS.ss`). -/
structure DMSStr : Type where
  neg : Bool
  deg : ℕ
  minutes : ℕ
  sec100 : ℕ
deriving DecidableEq, Repr

/-- Modelled from the spec (§4.1): `convert_dms_tuple2string` renders the
tuple with the seconds rounded to two decimal places (round half up). -/
def convert_dms_tuple2string (t : Bool × ℕ × ℕ × ℚ) : DMSStr :=
  ⟨t.1, t.2.1, t.2.2.1, (⌊t.2.2.2 * 100 + 1 / 2⌋).toNat⟩

/-- Modelled from the spec (§4.1): `to_decimal_degrees` on a parsed
`DD:MM:SS.ss` string, the decode direction used on header read. -/
def to_decimal_degrees (s : DMSStr) : ℚ :=
  (if s.neg then -1 else 1) *
    ((s.deg : ℚ) + (s.minutes : ℚ) / 60 + ((s.sec100 : ℚ) / 100) / 3600)

/-- The full position encoder used by `Header.write_header` (line 772). -/
def encode_position (x : ℚ) : DMSStr :=
  convert_dms_tuple2string (convert_degrees2dms_tuple x)

/-- Decimal rendering of a counter, digit characters via `Nat.digits`. -/
def natRepr (n : ℕ) : String :=
  ⟨((Nat.digits 10 n).map Nat.digitChar).reverse⟩

/-- Modelled from the spec (§4.5, §6): candidate names tried by the
unique-filename resolver: the name itself, then the name with an
incrementing counter suffix (placement relative to the extension is
abstracted). -/
def candidate_name (fn : String) : ℕ → String
  | 0 => fn
  | i + 1 => fn ++ "_" ++ natRepr (i + 1)

/-- Modelled from the spec (§4.5, §6): `mtpy.utils.filehandling.
make_unique_filename` is not under `src/`; it de-duplicates against the
existing files by suffixing an incrementing counter until the name is
unused.  The fallback arm is unreachable (there are more candidates than
existing files). -/
def make_unique_filename (existing : List String) (fn : String) : String :=
  match (List.range (existing.length + 1)).find?
      (fun i => decide (candidate_name fn i ∉ existing)) with
  | some i => candidate_name fn i
  | none => fn

/-- Target-path resolution of `Edi.write_edi_file` (lines 312-318): an
explicit `new_edi_fn` wins, else the source path, else a station-derived
default; the result is then unconditionally passed through the
unique-filename resolver, and is the path the file is written to and the
value returned (lines 384-388). -/
def write_edi_file_target (new_edi_fn : Option String)
    (edi_fn : Option String) (cwd_default : String)
    (existing : List String) : String :=
  let base := match new_edi_fn with
    | some p => p
    | none =>
      match edi_fn with
      | some p => p
      | none => cwd_default
  make_unique_filename existing base

/-- Does block `k` exist in the dict with exactly `n` values? -/
def hasLenB (d : DataDict) (k : String) (n : ℕ) : Bool :=
  match dictGet? d k with
  | some l => l.length == n
  | none => false

/-- The twelve impedance sub-block labels of `_z_labels`. -/
def zKeys : List String :=
  ["zxxr", "zxxi", "zxyr", "zxyi", "zyxr", "zyxi", "zyyr", "zyyi",
   "zxx.var", "zxy.var", "zyx.var", "zyy.var"]

/-- The six tipper sub-block labels of `_t_labels`. -/
def tKeys : List String :=
  ["txr.exp", "txi.exp", "tyr.exp", "tyi.exp", "txvar.exp", "tyvar.exp"]

/-- Well-formed impedance-format body: the scan succeeds, the `freq` block
and all twelve impedance sub-blocks carry exactly `n` values, and, when a
tipper-real block is present, so do all six tipper sub-blocks. -/
def mtWellFormedB (lines : List String) (n : ℕ) : Bool :=
  match read_mt_scan lines with
  | .error _ => false
  | .ok st =>
    hasLenB st.dict "freq" n &&
    zKeys.all (fun k => hasLenB st.dict k n) &&
    (if dictHas st.dict "txr.exp" then
       tKeys.all (fun k => hasLenB st.dict k n)
     else true)

/-- Well-formed impedance body with no tipper-real block at all. -/
def mtNoTipperB (lines : List String) (n : ℕ) : Bool :=
  match read_mt_scan lines with
  | .error _ => false
  | .ok st =>
    hasLenB st.dict "freq" n &&
    zKeys.all (fun k => hasLenB st.dict k n) &&
    !dictHas st.dict "txr.exp"

/-- A minimal well-formed one-frequency impedance body with tipper blocks
(concrete input for the shape-invariant witness). -/
def exLinesFull : List String :=
  [">FREQ // 1", " 10.0",
   ">ZXXR ROT=ZROT // 1", " 1.0", ">ZXXI ROT=ZROT // 1", " 2.0",
   ">ZXX.VAR // 1", " 0.5",
   ">ZXYR // 1", " 1.5", ">ZXYI // 1", " 2.5", ">ZXY.VAR // 1", " 0.25",
   ">ZYXR // 1", " 3.0", ">ZYXI // 1", " -4.0", ">ZYX.VAR // 1", " 0.5",
   ">ZYYR // 1", " 5.0", ">ZYYI // 1", " 6.0", ">ZYY.VAR // 1", " 0.5",
   ">TXR.EXP ROT=TROT // 1", " 0.25", ">TXI.EXP ROT=TROT // 1", " 0.5",
   ">TXVAR.EXP // 1", " 0.1",
   ">TYR.EXP // 1", " 0.75", ">TYI.EXP // 1", " 1.25",
   ">TYVAR.EXP // 1", " 0.2",
   ">END"]

/-- The same body with every tipper block removed (concrete input for the
missing-tipper witness). -/
def exLinesNoTipper : List String :=
  [">FREQ // 1", " 10.0",
   ">ZXXR ROT=ZROT // 1", " 1.0", ">ZXXI ROT=ZROT // 1", " 2.0",
   ">ZXX.VAR // 1", " 0.5",
   ">ZXYR // 1", " 1.5", ">ZXYI // 1", " 2.5", ">ZXY.VAR // 1", " 0.25",
   ">ZYXR // 1", " 3.0", ">ZYXI // 1", " -4.0", ">ZYX.VAR // 1", " 0.5",
   ">ZYYR // 1", " 5.0", ">ZYYI // 1", " 6.0", ">ZYY.VAR // 1", " 0.5",
   ">END"]

/-- Decidable equality on `Except` results (both sides concrete). -/
instance exceptDecEq {e a : Type} [DecidableEq e] [DecidableEq a] :
    DecidableEq (Except e a) := fun x y =>
  match x, y with
  | .ok v, .ok w =>
    if h : v = w then isTrue (by rw [h]) else isFalse (by simp [h])
  | .error v, .error w =>
    if h : v = w then isTrue (by rw [h]) else isFalse (by simp [h])
  | .ok _, .error _ => isFalse (by simp)
  | .error _, .ok _ => isFalse (by simp)

theorem except_bind_ok {e a b : Type} (x : a) (f : a → Except e b) :
    (Except.ok x : Except e a) >>= f = f x := rfl

theorem hasLenB_spec {d : DataDict} {k : String} {n : ℕ}
    (h : hasLenB d k n = true) :
    ∃ l, dictGet? d k = some l ∧ l.length = n := by
  unfold hasLenB at h
  cases hg : dictGet? d k with
  | none => rw [hg] at h; simp at h
  | some l => rw [hg] at h; simp at h; exact ⟨l, rfl, h⟩

theorem getArr_eq {d : DataDict} {k : String} {l : List ℚ}
    (h : dictGet? d k = some l) : getArr d k = .ok l := by
  unfold getArr; rw [h]

theorem complexCol_ok {d : DataDict} {n : ℕ} {kRe kIm : String}
    {lr li : List ℚ} (hr : dictGet? d kRe = some lr)
    (hi : dictGet? d kIm = some li) (hlr : lr.length = n)
    (hli : li.length = n) :
    complexCol d n kRe kIm = .ok (lr.zip li) := by
  unfold complexCol
  rw [getArr_eq hr, getArr_eq hi]
  have hadd : npComplexAdd lr li = some (lr.zip li) := by
    unfold npComplexAdd; rw [if_pos (by omega)]
  have hass : npAssign n (lr.zip li) = some (lr.zip li) := by
    unfold npAssign
    rw [if_pos (by rw [List.length_zip]; omega)]
  simp [hadd, hass, npOk, Bind.bind, Except.bind]

theorem realCol_ok {d : DataDict} {n : ℕ} {k : String} {l : List ℚ}
    (hk : dictGet? d k = some l) (hl : l.length = n) :
    realCol d n k = .ok l := by
  unfold realCol
  rw [getArr_eq hk]
  have hass : npAssign n l = some l := by
    unfold npAssign; rw [if_pos hl]
  simp [hass, npOk, Bind.bind, Except.bind]

theorem zip_len {A B : Type} {l1 : List A} {l2 : List B} {n : ℕ}
    (h1 : l1.length = n) (h2 : l2.length = n) : (l1.zip l2).length = n := by
  rw [List.length_zip, h1, h2]
  exact Nat.min_self n

/-- C1: for every data body declared as spectra format, `Edi._read_data`
routes to the empty stub `_read_spectra`, raises nothing (no
`NotImplementedError`), and returns with the impedance/tipper model left
unpopulated.  This contradicts the claim (and the docstrings of
`_read_data`/`_read_spectra`, which promise conversion to impedance and
tipper): the spectra path neither rejects the body nor signals anything. -/
theorem read_data_spectra_silent (nfreq : Option (Sum ℤ String))
    (lines : List String) :
    read_data "spectra" nfreq lines = .ok none := by
  unfold read_data
  rw [if_pos rfl]
  rfl

/-- C2: for every well-formed impedance-format body (scan succeeds, the
freq block and all impedance sub-blocks carry exactly `nfreq` values, and
the tipper sub-blocks do too when present), `Edi._read_mt` succeeds and the
resulting model has frequency arrays and every per-frequency impedance and
tipper column of length exactly `DataSection.nfreq`. -/
theorem read_mt_shape (lines : List String) (n : ℕ)
    (h : mtWellFormedB lines n = true) :
    ∃ m : MTModel, read_mt n lines = .ok m ∧
      m.zfreq.length = n ∧ m.tfreq.length = n ∧
      m.zxx.length = n ∧ m.zxy.length = n ∧
      m.zyx.length = n ∧ m.zyy.length = n ∧
      m.zerrxx.length = n ∧ m.zerrxy.length = n ∧
      m.zerryx.length = n ∧ m.zerryy.length = n ∧
      m.tx.length = n ∧ m.ty.length = n ∧
      m.terrx.length = n ∧ m.terry.length = n := by
  unfold mtWellFormedB at h
  cases hscan : read_mt_scan lines with
  | error e => rw [hscan] at h; simp at h
  | ok st =>
    rw [hscan] at h
    simp only [Bool.and_eq_true, List.all_eq_true] at h
    obtain ⟨⟨hfreq, hzs⟩, htip⟩ := h
    obtain ⟨lf, hlf, hlfn⟩ := hasLenB_spec hfreq
    obtain ⟨l1, h1, h1n⟩ := hasLenB_spec (hzs "zxxr" (by simp [zKeys]))
    obtain ⟨l2, h2, h2n⟩ := hasLenB_spec (hzs "zxxi" (by simp [zKeys]))
    obtain ⟨l3, h3, h3n⟩ := hasLenB_spec (hzs "zxyr" (by simp [zKeys]))
    obtain ⟨l4, h4, h4n⟩ := hasLenB_spec (hzs "zxyi" (by simp [zKeys]))
    obtain ⟨l5, h5, h5n⟩ := hasLenB_spec (hzs "zyxr" (by simp [zKeys]))
    obtain ⟨l6, h6, h6n⟩ := hasLenB_spec (hzs "zyxi" (by simp [zKeys]))
    obtain ⟨l7, h7, h7n⟩ := hasLenB_spec (hzs "zyyr" (by simp [zKeys]))
    obtain ⟨l8, h8, h8n⟩ := hasLenB_spec (hzs "zyyi" (by simp [zKeys]))
    obtain ⟨e1, he1, he1n⟩ := hasLenB_spec (hzs "zxx.var" (by simp [zKeys]))
    obtain ⟨e2, he2, he2n⟩ := hasLenB_spec (hzs "zxy.var" (by simp [zKeys]))
    obtain ⟨e3, he3, he3n⟩ := hasLenB_spec (hzs "zyx.var" (by simp [zKeys]))
    obtain ⟨e4, he4, he4n⟩ := hasLenB_spec (hzs "zyy.var" (by simp [zKeys]))
    have hrm : read_mt n lines = read_mt_fill n st.dict := by
      unfold read_mt
      rw [hscan, except_bind_ok]
    rw [hrm]
    cases hT : dictHas st.dict "txr.exp" with
    | true =>
      rw [hT] at htip
      simp only [if_true] at htip
      rw [List.all_eq_true] at htip
      obtain ⟨t1, ht1, ht1n⟩ := hasLenB_spec (htip "txr.exp" (by simp [tKeys]))
      obtain ⟨t2, ht2, ht2n⟩ := hasLenB_spec (htip "txi.exp" (by simp [tKeys]))
      obtain ⟨t3, ht3, ht3n⟩ := hasLenB_spec (htip "tyr.exp" (by simp [tKeys]))
      obtain ⟨t4, ht4, ht4n⟩ := hasLenB_spec (htip "tyi.exp" (by simp [tKeys]))
      obtain ⟨t5, ht5, ht5n⟩ := hasLenB_spec (htip "txvar.exp" (by simp [tKeys]))
      obtain ⟨t6, ht6, ht6n⟩ := hasLenB_spec (htip "tyvar.exp" (by simp [tKeys]))
      have hfill : read_mt_fill n st.dict =
          .ok ⟨lf, l1.zip l2, l3.zip l4, l5.zip l6, l7.zip l8,
               e1, e2, e3, e4, lf, t1.zip t2, t3.zip t4, t5, t6⟩ := by
        unfold read_mt_fill
        rw [getArr_eq hlf,
            complexCol_ok h1 h2 h1n h2n, complexCol_ok h3 h4 h3n h4n,
            complexCol_ok h5 h6 h5n h6n, complexCol_ok h7 h8 h7n h8n,
            realCol_ok he1 he1n, realCol_ok he2 he2n,
            realCol_ok he3 he3n, realCol_ok he4 he4n,
            complexCol_ok ht1 ht2 ht1n ht2n, complexCol_ok ht3 ht4 ht3n ht4n,
            realCol_ok ht5 ht5n, realCol_ok ht6 ht6n, hT]
        rfl
      exact ⟨_, hfill, hlfn, hlfn, zip_len h1n h2n, zip_len h3n h4n,
             zip_len h5n h6n, zip_len h7n h8n, he1n, he2n, he3n, he4n,
             zip_len ht1n ht2n, zip_len ht3n ht4n, ht5n, ht6n⟩
    | false =>
      have hfill : read_mt_fill n st.dict =
          .ok ⟨lf, l1.zip l2, l3.zip l4, l5.zip l6, l7.zip l8,
               e1, e2, e3, e4, lf,
               List.replicate n (0, 0), List.replicate n (0, 0),
               List.replicate n 0, List.replicate n 0⟩ := by
        unfold read_mt_fill
        rw [getArr_eq hlf,
            complexCol_ok h1 h2 h1n h2n, complexCol_ok h3 h4 h3n h4n,
            complexCol_ok h5 h6 h5n h6n, complexCol_ok h7 h8 h7n h8n,
            realCol_ok he1 he1n, realCol_ok he2 he2n,
            realCol_ok he3 he3n, realCol_ok he4 he4n, hT]
        rfl
      exact ⟨_, hfill, hlfn, hlfn, zip_len h1n h2n, zip_len h3n h4n,
             zip_len h5n h6n, zip_len h7n h8n, he1n, he2n, he3n, he4n,
             List.length_replicate n _, List.length_replicate n _,
             List.length_replicate n _, List.length_replicate n _⟩

/-- C3: for every well-formed impedance body containing no tipper-real
block (`txr.exp` absent from the scanned dict), `Edi._read_mt` succeeds
without raising and the tipper and tipper-error arrays are all zero with
shape `(nfreq, 1, 2)` (two per-frequency columns of length `nfreq`). -/
theorem read_mt_missing_tipper (lines : List String) (n : ℕ)
    (h : mtNoTipperB lines n = true) :
    ∃ m : MTModel, read_mt n lines = .ok m ∧
      m.tx = List.replicate n (0, 0) ∧ m.ty = List.replicate n (0, 0) ∧
      m.terrx = List.replicate n 0 ∧ m.terry = List.replicate n 0 ∧
      m.tx.length = n ∧ m.ty.length = n := by
  unfold mtNoTipperB at h
  cases hscan : read_mt_scan lines with
  | error e => rw [hscan] at h; simp at h
  | ok st =>
    rw [hscan] at h
    simp only [Bool.and_eq_true, List.all_eq_true, Bool.not_eq_true'] at h
    obtain ⟨⟨hfreq, hzs⟩, hT⟩ := h
    obtain ⟨lf, hlf, hlfn⟩ := hasLenB_spec hfreq
    obtain ⟨l1, h1, h1n⟩ := hasLenB_spec (hzs "zxxr" (by simp [zKeys]))
    obtain ⟨l2, h2, h2n⟩ := hasLenB_spec (hzs "zxxi" (by simp [zKeys]))
    obtain ⟨l3, h3, h3n⟩ := hasLenB_spec (hzs "zxyr" (by simp [zKeys]))
    obtain ⟨l4, h4, h4n⟩ := hasLenB_spec (hzs "zxyi" (by simp [zKeys]))
    obtain ⟨l5, h5, h5n⟩ := hasLenB_spec (hzs "zyxr" (by simp [zKeys]))
    obtain ⟨l6, h6, h6n⟩ := hasLenB_spec (hzs "zyxi" (by simp [zKeys]))
    obtain ⟨l7, h7, h7n⟩ := hasLenB_spec (hzs "zyyr" (by simp [zKeys]))
    obtain ⟨l8, h8, h8n⟩ := hasLenB_spec (hzs "zyyi" (by simp [zKeys]))
    obtain ⟨e1, he1, he1n⟩ := hasLenB_spec (hzs "zxx.var" (by simp [zKeys]))
    obtain ⟨e2, he2, he2n⟩ := hasLenB_spec (hzs "zxy.var" (by simp [zKeys]))
    obtain ⟨e3, he3, he3n⟩ := hasLenB_spec (hzs "zyx.var" (by simp [zKeys]))
    obtain ⟨e4, he4, he4n⟩ := hasLenB_spec (hzs "zyy.var" (by simp [zKeys]))
    have hrm : read_mt n lines = read_mt_fill n st.dict := by
      unfold read_mt
      rw [hscan, except_bind_ok]
    rw [hrm]
    have hfill : read_mt_fill n st.dict =
        .ok ⟨lf, l1.zip l2, l3.zip l4, l5.zip l6, l7.zip l8,
             e1, e2, e3, e4, lf,
             List.replicate n (0, 0), List.replicate n (0, 0),
             List.replicate n 0, List.replicate n 0⟩ := by
      unfold read_mt_fill
      rw [getArr_eq hlf,
          complexCol_ok h1 h2 h1n h2n, complexCol_ok h3 h4 h3n h4n,
          complexCol_ok h5 h6 h5n h6n, complexCol_ok h7 h8 h7n h8n,
          realCol_ok he1 he1n, realCol_ok he2 he2n,
          realCol_ok he3 he3n, realCol_ok he4 he4n, hT]
      rfl
    exact ⟨_, hfill, rfl, rfl, rfl, rfl,
           List.length_replicate n _, List.length_replicate n _⟩

/-- Witness for C2 at a concrete one-frequency body with tipper blocks. -/
theorem read_mt_shape_witness :
    mtWellFormedB exLinesFull 1 = true ∧
    ∃ m : MTModel, read_mt 1 exLinesFull = .ok m ∧
      m.zfreq.length = 1 ∧ m.tfreq.length = 1 ∧
      m.zxx.length = 1 ∧ m.zxy.length = 1 ∧
      m.zyx.length = 1 ∧ m.zyy.length = 1 ∧
      m.zerrxx.length = 1 ∧ m.zerrxy.length = 1 ∧
      m.zerryx.length = 1 ∧ m.zerryy.length = 1 ∧
      m.tx.length = 1 ∧ m.ty.length = 1 ∧
      m.terrx.length = 1 ∧ m.terry.length = 1 :=
  ⟨by decide, read_mt_shape exLinesFull 1 (by decide)⟩

/-- Witness for C3 at a concrete one-frequency body without tipper. -/
theorem read_mt_missing_tipper_witness :
    mtNoTipperB exLinesNoTipper 1 = true ∧
    ∃ m : MTModel, read_mt 1 exLinesNoTipper = .ok m ∧
      m.tx = List.replicate 1 (0, 0) ∧ m.ty = List.replicate 1 (0, 0) ∧
      m.terrx = List.replicate 1 0 ∧ m.terry = List.replicate 1 0 ∧
      m.tx.length = 1 ∧ m.ty.length = 1 :=
  ⟨by decide, read_mt_missing_tipper exLinesNoTipper 1 (by decide)⟩

theorem startsWith_contains {c : Char} {s : String}
    (h : strStartsWithCh c s = true) : strContainsCh c s = true := by
  unfold strStartsWithCh at h
  unfold strContainsCh
  cases hd : s.data with
  | nil => rw [hd] at h; simp at h
  | cons c2 rest => rw [hd] at h; simp at h; simp [hd, h]

/-- C4: token handling of the transfer-function decoder.  (1) an
unparsable token is stored as 0.0; (2) a token whose float value is the
sentinel 1.0e32 is stored as 0.0; (3) every other token is stored
unchanged; (4) a data line consumed under an open block extends that
block with exactly the per-token conversions, in order. -/
theorem read_mt_token_conversion :
    (∀ t : String, parseFloat? t = none → convert_token t = 0) ∧
    (∀ t : String, parseFloat? t = some sentinel → convert_token t = 0) ∧
    (∀ (t : String) (v : ℚ), parseFloat? t = some v → v ≠ sentinel →
      convert_token t = v) ∧
    (∀ (st : ScanState) (line : String) (l : List ℚ),
      st.dataFind = true → strContainsCh '>' line = false →
      strContainsCh '!' line = false →
      dictGet? st.dict st.key = some l →
      read_mt_line st line =
        .ok ⟨dictSet st.dict st.key (l ++ (pySplit line).map convert_token),
             true, st.key⟩) := by
  refine ⟨?_, ?_, ?_, ?_⟩
  · intro t h; unfold convert_token; rw [h]
  · intro t h; unfold convert_token; rw [h]; simp
  · intro t v h hne; unfold convert_token; rw [h]; simp [hne]
  · intro st line l hdf hgt hbang hget
    have hsw : strStartsWithCh '>' line = false := by
      cases hc : strStartsWithCh '>' line
      · rfl
      · rw [startsWith_contains hc] at hgt; exact absurd hgt (by simp)
    unfold read_mt_line
    rw [hsw, hgt, hbang, hdf, hget]
    simp

/-- Witness for C4 at concrete tokens and a concrete data line. -/
theorem read_mt_token_conversion_witness :
    convert_token "****" = 0 ∧ convert_token "1.0e32" = 0 ∧
    convert_token "2.5" = 5 / 2 ∧
    read_mt_line ⟨[("zxxr", [])], true, "zxxr"⟩ " 2.5 ****" =
      .ok ⟨[("zxxr", [5 / 2, 0])], true, "zxxr"⟩ := by
  obtain ⟨hnone, hsent, hval, hline⟩ := read_mt_token_conversion
  have hp32 : parseFloat? "1.0e32" = some sentinel := by
    have h0 : parseFloat? "1.0e32" =
        some (((1 : ℚ) + (0 : ℚ) / 10 ^ (1 : ℕ)) * 10 ^ ((32 : ℤ))) := rfl
    rw [h0]
    norm_num [sentinel]
  have hp25 : parseFloat? "2.5" = some (5 / 2) := by
    have h0 : parseFloat? "2.5" = some ((2 : ℚ) + (5 : ℚ) / 10 ^ (1 : ℕ)) := rfl
    rw [h0]
    norm_num
  have hstars : convert_token "****" = 0 := hnone "****" rfl
  have h32 : convert_token "1.0e32" = 0 := hsent "1.0e32" hp32
  have h25 : convert_token "2.5" = 5 / 2 :=
    hval "2.5" (5 / 2) hp25 (by norm_num [sentinel])
  refine ⟨hstars, h32, h25, ?_⟩
  have hr := hline ⟨[("zxxr", [])], true, "zxxr"⟩ " 2.5 ****" [] rfl rfl rfl rfl
  rw [hr]
  have htok : pySplit " 2.5 ****" = ["2.5", "****"] := rfl
  rw [htok]
  simp only [List.map_cons, List.map_nil, List.nil_append, h25, hstars]
  rfl

/-- C5 counterexample: the zero-to-sentinel substitution IS applied to the
frequency block, contrary to the claim.  Writing the freq array [0] with
the empty sentinel set to 42 emits the value 42 in place of the zero. -/
theorem write_data_block_freq_subst_counterexample :
    write_data_block 42 "freq" [0] = .ok ⟨"FREQ", none, 1, [42]⟩ ∧
    (42 : ℚ) ≠ 0 := by
  refine ⟨by decide, by norm_num⟩

/-- C5 (amended): in every block that `_write_data_block` emits, a
zero-valued element is replaced by the Header empty sentinel except in the
two rotation blocks (`zrot`, `trot`), whose values pass through unchanged;
the substitution applies to the frequency block as well. -/
theorem write_data_block_subst (empty : ℚ) (key : String) (arr : List ℚ)
    (b : DataBlock)
    (h : write_data_block empty key arr = .ok b) :
    (strToLower key = "zrot" ∨ strToLower key = "trot" → b.values = arr) ∧
    (strToLower key ≠ "zrot" → strToLower key ≠ "trot" →
      b.values = arr.map (fun v => if v = 0 then empty else v)) := by
  unfold write_data_block at h
  dsimp only at h
  split_ifs at h with h1 h2 h3 h4
  · injection h with h
    subst h
    simp only [Bool.and_eq_true, Bool.not_eq_true', Bool.or_eq_false_iff,
               decide_eq_false_iff_not] at h1
    exact ⟨fun hc => absurd hc (by tauto), fun _ _ => rfl⟩
  · injection h with h
    subst h
    simp only [Bool.and_eq_true, Bool.not_eq_true', Bool.or_eq_false_iff,
               decide_eq_false_iff_not] at h2
    exact ⟨fun hc => absurd hc (by tauto), fun _ _ => rfl⟩
  · injection h with h
    subst h
    refine ⟨fun hc => ?_, fun _ _ => rfl⟩
    rcases hc with hc | hc
    · exact absurd (h3.symm.trans hc) (by decide)
    · exact absurd (h3.symm.trans hc) (by decide)
  · injection h with h
    subst h
    simp only [Bool.or_eq_true, decide_eq_true_eq] at h4
    exact ⟨fun _ => rfl, fun hz ht => absurd h4 (by tauto)⟩

/-- Witness for the amended C5 at a concrete impedance block. -/
theorem write_data_block_subst_witness :
    write_data_block 42 "zxxr" [0, 3] =
      .ok ⟨"ZXXR", some "ZROT", 2, [42, 3]⟩ ∧
    strToLower "zxxr" ≠ "zrot" ∧ strToLower "zxxr" ≠ "trot" ∧
    (⟨"ZXXR", some "ZROT", 2, [42, 3]⟩ : DataBlock).values =
      [(0 : ℚ), 3].map (fun v => if v = 0 then 42 else v) := by
  have hw : write_data_block 42 "zxxr" [0, 3] =
      .ok ⟨"ZXXR", some "ZROT", 2, [(if (0 : ℚ) = 0 then 42 else 0),
                                    (if (3 : ℚ) = 0 then 42 else 3)]⟩ := rfl
  have h0 : (if (0 : ℚ) = 0 then (42 : ℚ) else 0) = 42 := by norm_num
  have h3 : (if (3 : ℚ) = 0 then (42 : ℚ) else 3) = 3 := by norm_num
  have hw2 : write_data_block 42 "zxxr" [0, 3] =
      .ok ⟨"ZXXR", some "ZROT", 2, [42, 3]⟩ := by rw [hw, h0, h3]
  refine ⟨hw2, by decide, by decide, ?_⟩
  have := (write_data_block_subst 42 "zxxr" [0, 3] _ hw2).2
    (by decide) (by decide)
  exact this

/-- C6 counterexample: the label `data` is not one of the 19 recognized
block labels, yet `_write_data_block` happily emits a block for it (with a
`ROT=TROT` annotation) instead of failing: the guard only checks for the
letters `z`/`t`. -/
theorem write_data_block_unknown_label_counterexample :
    "data" ∉ recognized_labels ∧
    write_data_block 42 "data" [] = .ok ⟨"DATA", some "TROT", 0, []⟩ :=
  ⟨by decide, by decide⟩

/-- C6 (amended): `_write_data_block` fails with the EDI error (the
unwritable-block `FormatError` of the spec) exactly for labels whose
lowercase form contains neither `z` nor `t` and is not `freq`; every other
label, recognized or not, is emitted as a block. -/
theorem write_data_block_error_iff (empty : ℚ) (key : String)
    (arr : List ℚ) :
    write_data_block empty key arr = .error .mtpyError ↔
      (strContainsCh 'z' (strToLower key) = false ∧
       strContainsCh 't' (strToLower key) = false ∧
       strToLower key ≠ "freq") := by
  unfold write_data_block
  dsimp only
  split_ifs with h1 h2 h3 h4
  · simp only [Bool.and_eq_true] at h1
    refine iff_of_false (by simp) ?_
    rw [h1.1]
    simp
  · simp only [Bool.and_eq_true] at h2
    refine iff_of_false (by simp) ?_
    rw [h2.1]
    simp
  · refine iff_of_false (by simp) ?_
    rw [h3]
    decide
  · simp only [Bool.or_eq_true, decide_eq_true_eq] at h4
    refine iff_of_false (by simp) ?_
    rcases h4 with hc | hc <;> rw [hc] <;> decide
  · have hrot : (decide (strToLower key = "zrot") ||
        decide (strToLower key = "trot")) = false := by
      simpa using h4
    have hz : strContainsCh 'z' (strToLower key) = false := by
      rcases Bool.eq_false_or_eq_true (strContainsCh 'z' (strToLower key))
        with hh | hh
      · exact absurd (by rw [hh, hrot]; rfl) h1
      · exact hh
    have ht : strContainsCh 't' (strToLower key) = false := by
      rcases Bool.eq_false_or_eq_true (strContainsCh 't' (strToLower key))
        with hh | hh
      · exact absurd (by rw [hh, hrot]; rfl) h2
      · exact hh
    exact iff_of_true rfl ⟨hz, ht, h3⟩

/-- C7 counterexample: `DataSection.get_data_sect` with no file name
raises `MTpyError_EDI` instead of being a silent no-op, contradicting the
claim that only the top-level Document open fails. -/
theorem get_data_sect_none_counterexample :
    get_data_sect false none = .error .mtpyError := by decide

/-- C7 (amended): with no source file and no in-memory list, the
Header/Information/DefineMeasurement line getters return without raising
and leave the stored list unchanged, and `read_info` and
`read_define_measurement` are no-ops; but `Header.read_header` and
`DataSection.read_data_sect` raise a `TypeError` (Python iterates over the
`None` list), `DataSection.get_data_sect` raises `MTpyError_EDI`, and the
top-level `read_edi_file` raises `MTpyError_EDI` when no path is given or
the path does not exist. -/
theorem reader_no_source_behavior :
    (∀ (c : Option (List String)) (prev : Option (List String)),
        get_header_list false c prev = .ok prev) ∧
    (∀ (c : Option (List String)) (prev : Option (List String)),
        get_info_list false c prev = .ok prev) ∧
    (∀ (c : Option (List String)) (prev : Option (List MeasLine)),
        get_measurement_lists false c prev = .ok prev) ∧
    (∀ c : Option (List String), get_data_sect false c = .error .mtpyError) ∧
    (∀ (c : Option (List String)) (prev : Option (List String)),
        read_info none false c prev = .ok prev) ∧
    (∀ (c : Option (List String)) (dm : DefMeasS),
        dm.measurement_list = none →
        read_define_measurement none false c dm = .ok dm) ∧
    (∀ (c : Option (List String)) (h : HeaderS), h.header_list = none →
        read_header none false c h = .error .typeError) ∧
    (∀ (c : Option (List String)) (ds : DataSectS),
        ds.data_sect_list = none →
        read_data_sect none false c ds = .error .typeError) ∧
    (∀ fs : FileSystem, read_edi_file fs none = .error .mtpyError) ∧
    (∀ (fs : FileSystem) (fn : String), fsGet? fs fn = none →
        read_edi_file fs (some fn) = .error .mtpyError) := by
  refine ⟨?_, ?_, ?_, ?_, ?_, ?_, ?_, ?_, ?_, ?_⟩
  · intro c prev; rfl
  · intro c prev; rfl
  · intro c prev; rfl
  · intro c; rfl
  · intro c prev
    unfold read_info
    cases prev with
    | none => rfl
    | some l => rfl
  · intro c dm hm
    unfold read_define_measurement
    rw [hm]
    rfl
  · intro c h hh
    unfold read_header
    rw [hh]
    rfl
  · intro c ds hd
    unfold read_data_sect
    rw [hd]
    rfl
  · intro fs; rfl
  · intro fs fn hf
    unfold read_edi_file
    dsimp only
    rw [hf]

/-- C8: the position backfill applied at the end of `Edi.read_edi_file`
sets each of `lat`, `lon`, `elev` from `reflat`, `reflon`, `refelev`
respectively exactly when the header field is still unset, independently
of the other two, and leaves an already-set field unchanged. -/
theorem backfill_positions_spec (h : HeaderS) (dm : DefMeasS) :
    (backfill_positions h dm).lat =
      (if h.lat = none then dm.reflat else h.lat) ∧
    (backfill_positions h dm).lon =
      (if h.lon = none then dm.reflon else h.lon) ∧
    (backfill_positions h dm).elev =
      (if h.elev = none then dm.refelev else h.elev) := by
  unfold backfill_positions
  rcases hlat : h.lat with _ | x <;> rcases hlon : h.lon with _ | y <;>
    rcases helev : h.elev with _ | z <;> simp [hlat, hlon, helev]

/-- Witness for the amended C7 at concrete empty states. -/
theorem reader_no_source_behavior_witness :
    read_header none false none defaultHeader = .error .typeError ∧
    read_data_sect none false none defaultDataSect = .error .typeError ∧
    read_define_measurement none false none defaultDefMeas =
      .ok defaultDefMeas ∧
    read_edi_file ⟨[]⟩ (some "mt01.edi") = .error .mtpyError :=
  ⟨reader_no_source_behavior.2.2.2.2.2.2.1 none defaultHeader rfl,
   reader_no_source_behavior.2.2.2.2.2.2.2.1 none defaultDataSect rfl,
   reader_no_source_behavior.2.2.2.2.2.1 none defaultDefMeas rfl,
   reader_no_source_behavior.2.2.2.2.2.2.2.2.2 ⟨[]⟩ "mt01.edi" rfl⟩

theorem round2_err (s : ℚ) (hs : 0 ≤ s) :
    |((⌊s * 100 + 1 / 2⌋.toNat : ℕ) : ℚ) / 100 - s| ≤ 1 / 200 := by
  have h0 : (0 : ℤ) ≤ ⌊s * 100 + 1 / 2⌋ :=
    Int.floor_nonneg.mpr (by linarith)
  have hc : (((⌊s * 100 + 1 / 2⌋.toNat : ℕ) : ℚ)) =
      ((⌊s * 100 + 1 / 2⌋ : ℤ) : ℚ) := by
    exact_mod_cast congrArg (Int.cast : ℤ → ℚ) (Int.toNat_of_nonneg h0)
  rw [hc]
  have h1 : ((⌊s * 100 + 1 / 2⌋ : ℤ) : ℚ) ≤ s * 100 + 1 / 2 := Int.floor_le _
  have h2 : s * 100 + 1 / 2 - 1 < ((⌊s * 100 + 1 / 2⌋ : ℤ) : ℚ) :=
    Int.sub_one_lt_floor _
  rw [abs_le]
  constructor <;> linarith

theorem dms_sum_eq_abs (x : ℚ) :
    ((convert_degrees2dms_tuple x).2.1 : ℚ) +
    ((convert_degrees2dms_tuple x).2.2.1 : ℚ) / 60 +
    (convert_degrees2dms_tuple x).2.2.2 / 3600 = |x| := by
  unfold convert_degrees2dms_tuple
  dsimp only
  ring

theorem dms_sec_nonneg (x : ℚ) : 0 ≤ (convert_degrees2dms_tuple x).2.2.2 := by
  unfold convert_degrees2dms_tuple
  dsimp only
  have ha0 : (0 : ℚ) ≤ |x| := abs_nonneg x
  have hd : ((⌊|x|⌋.toNat : ℕ) : ℚ) = ((⌊|x|⌋ : ℤ) : ℚ) := by
    exact_mod_cast congrArg (Int.cast : ℤ → ℚ)
      (Int.toNat_of_nonneg (Int.floor_nonneg.mpr ha0))
  rw [hd]
  have hrem : (0 : ℚ) ≤ |x| - ((⌊|x|⌋ : ℤ) : ℚ) := by
    have := Int.floor_le |x|
    linarith
  have hm : ((⌊(|x| - ((⌊|x|⌋ : ℤ) : ℚ)) * 60⌋.toNat : ℕ) : ℚ) =
      ((⌊(|x| - ((⌊|x|⌋ : ℤ) : ℚ)) * 60⌋ : ℤ) : ℚ) := by
    exact_mod_cast congrArg (Int.cast : ℤ → ℚ)
      (Int.toNat_of_nonneg (Int.floor_nonneg.mpr
        (mul_nonneg hrem (by norm_num))))
  rw [hm]
  have hmle : ((⌊(|x| - ((⌊|x|⌋ : ℤ) : ℚ)) * 60⌋ : ℤ) : ℚ) ≤
      (|x| - ((⌊|x|⌋ : ℤ) : ℚ)) * 60 := Int.floor_le _
  nlinarith

/-- C9 (amended): the position codec round trip recovers every
decimal-degree value to within 1/720000 of a degree (half of one
hundredth of an arc-second, about 1.39e-6), matching the two-decimal
seconds precision of section 4.1 of the spec; the claimed 1e-6 bound is
slightly too strong. -/
theorem position_roundtrip_bound (x : ℚ) :
    |to_decimal_degrees (encode_position x) - x| ≤ 1 / 720000 := by
  have hsum := dms_sum_eq_abs x
  have hs0 := dms_sec_nonneg x
  set t := convert_degrees2dms_tuple x with ht
  have hround := round2_err t.2.2.2 hs0
  have hneg : t.1 = decide (x < 0) := by rw [ht]; rfl
  unfold encode_position convert_dms_tuple2string to_decimal_degrees
  rw [← ht]
  dsimp only
  set F : ℚ := ((⌊t.2.2.2 * 100 + 1 / 2⌋.toNat : ℕ) : ℚ) with hF
  by_cases hx : x < 0
  · have ht1 : t.1 = true := by rw [hneg]; exact decide_eq_true hx
    rw [ht1]
    have habs : |x| = -x := abs_of_neg hx
    rw [habs] at hsum
    have key : (if (true : Bool) = true then (-1 : ℚ) else 1) *
        ((t.2.1 : ℚ) + (t.2.2.1 : ℚ) / 60 + F / 100 / 3600) - x =
        (t.2.2.2 - F / 100) / 3600 := by
      simp only [if_true]
      linear_combination (-1 : ℚ) * hsum
    rw [key, abs_div, abs_of_pos (show (0 : ℚ) < 3600 by norm_num)]
    have h3 : |t.2.2.2 - F / 100| ≤ 1 / 200 := by
      rw [abs_sub_comm]
      exact hround
    linarith
  · have ht1 : t.1 = false := by rw [hneg]; exact decide_eq_false hx
    rw [ht1]
    have habs : |x| = x := abs_of_nonneg (not_lt.mp hx)
    rw [habs] at hsum
    have key : (if (false : Bool) = true then (-1 : ℚ) else 1) *
        ((t.2.1 : ℚ) + (t.2.2.1 : ℚ) / 60 + F / 100 / 3600) - x =
        (F / 100 - t.2.2.2) / 3600 := by
      simp only [Bool.false_eq_true, if_false]
      linear_combination hsum
    rw [key, abs_div, abs_of_pos (show (0 : ℚ) < 3600 by norm_num)]
    linarith [abs_le.mp hround, abs_nonneg (F / 100 - t.2.2.2),
              le_abs_self (F / 100 - t.2.2.2)]

/-- C9 counterexample: at x = 49/36000000 degrees (0.0049 arc-seconds,
well inside [-90, 90]), the encoded seconds field 00.00 decodes to 0 and
the round-trip error is about 1.36e-6 degrees, exceeding the claimed 1e-6
bound. -/
theorem position_roundtrip_1e6_counterexample :
    (-90 : ℚ) ≤ 49 / 36000000 ∧ ((49 : ℚ) / 36000000) ≤ 90 ∧
    1 / 1000000 <
      |to_decimal_degrees (encode_position (49 / 36000000)) - 49 / 36000000| := by
  refine ⟨by norm_num, by norm_num, ?_⟩
  have hq0 : (0 : ℚ) ≤ 49 / 36000000 := by norm_num
  have habs : |(49 : ℚ) / 36000000| = 49 / 36000000 := abs_of_nonneg hq0
  have hval : to_decimal_degrees (encode_position (49 / 36000000)) = 0 := by
    unfold encode_position convert_degrees2dms_tuple convert_dms_tuple2string
      to_decimal_degrees
    dsimp only
    rw [habs]
    have hf1 : ⌊(49 : ℚ) / 36000000⌋ = 0 := by
      norm_num [Int.floor_eq_zero_iff]
    rw [hf1]
    have hc0 : (((0 : ℤ).toNat : ℕ) : ℚ) = 0 := by norm_num
    rw [hc0]
    have hf2 : ⌊((49 : ℚ) / 36000000 - 0) * 60⌋ = 0 := by
      norm_num [Int.floor_eq_zero_iff]
    rw [hf2, hc0]
    have hf3 : ⌊((49 : ℚ) / 36000000 - 0 - 0 / 60) * 3600 * 100 + 1 / 2⌋ = 0 := by
      norm_num [Int.floor_eq_zero_iff]
    rw [hf3, hc0]
    have hd : ¬((49 : ℚ) / 36000000 < 0) := by norm_num
    rw [decide_eq_false hd]
    norm_num
  rw [hval, zero_sub, abs_neg, habs]
  norm_num

theorem digitChar_toNat_sub (d : ℕ) (hd : d < 10) :
    (Nat.digitChar d).toNat - 48 = d := by
  interval_cases d <;> decide

theorem natRepr_inj : Function.Injective natRepr := by
  intro a b hab
  unfold natRepr at hab
  have hdata := congrArg String.data hab
  simp only at hdata
  have hrev := congrArg List.reverse hdata
  simp only [List.reverse_reverse] at hrev
  have hmap := congrArg (List.map (fun c : Char => c.toNat - 48)) hrev
  simp only [List.map_map] at hmap
  have ha : (Nat.digits 10 a).map
      ((fun c : Char => c.toNat - 48) ∘ Nat.digitChar) = Nat.digits 10 a := by
    apply List.map_congr_left ?_ |>.trans (List.map_id _)
    intro d hd
    exact digitChar_toNat_sub d (Nat.digits_lt_base (by norm_num) hd)
  have hb : (Nat.digits 10 b).map
      ((fun c : Char => c.toNat - 48) ∘ Nat.digitChar) = Nat.digits 10 b := by
    apply List.map_congr_left ?_ |>.trans (List.map_id _)
    intro d hd
    exact digitChar_toNat_sub d (Nat.digits_lt_base (by norm_num) hd)
  rw [ha, hb] at hmap
  have := congrArg (Nat.ofDigits 10) hmap
  rwa [Nat.ofDigits_digits, Nat.ofDigits_digits] at this

theorem natRepr_ne_nil (i : ℕ) : (natRepr (i + 1)).data ≠ [] := by
  unfold natRepr
  simp only
  intro hc
  have h1 : Nat.digits 10 (i + 1) ≠ [] :=
    Nat.digits_ne_nil_iff_ne_zero.mpr (Nat.succ_ne_zero i)
  have h2 := congrArg List.length hc
  simp only [List.length_reverse, List.length_map, List.length_nil] at h2
  exact h1 (List.length_eq_zero.mp h2)

theorem candidate_name_inj (fn : String) :
    Function.Injective (candidate_name fn) := by
  intro i j hij
  match i, j with
  | 0, 0 => rfl
  | 0, j + 1 =>
    exfalso
    unfold candidate_name at hij
    have hd := congrArg (fun s : String => s.data.length) hij
    simp only [String.data_append, List.length_append] at hd
    have hne := natRepr_ne_nil j
    have hlen : (natRepr (j + 1)).data.length ≠ 0 := by
      intro hc
      exact hne (List.length_eq_zero.mp hc)
    omega
  | i + 1, 0 =>
    exfalso
    unfold candidate_name at hij
    have hd := congrArg (fun s : String => s.data.length) hij
    simp only [String.data_append, List.length_append] at hd
    have hne := natRepr_ne_nil i
    have hlen : (natRepr (i + 1)).data.length ≠ 0 := by
      intro hc
      exact hne (List.length_eq_zero.mp hc)
    omega
  | i + 1, j + 1 =>
    unfold candidate_name at hij
    have hd := congrArg String.data hij
    simp only [String.data_append] at hd
    have h1 := List.append_cancel_left hd
    have h3 : natRepr (i + 1) = natRepr (j + 1) := by
      cases hni : natRepr (i + 1) with
      | mk d1 =>
        cases hnj : natRepr (j + 1) with
        | mk d2 =>
          rw [hni, hnj] at h1
          simp only at h1
          rw [h1]
    have := natRepr_inj h3
    omega

theorem make_unique_filename_fresh (existing : List String) (fn : String) :
    make_unique_filename existing fn ∉ existing := by
  unfold make_unique_filename
  cases hf : (List.range (existing.length + 1)).find?
      (fun i => decide (candidate_name fn i ∉ existing)) with
  | some i =>
    have := List.find?_some hf
    simpa using this
  | none =>
    exfalso
    have hall : ∀ i ∈ List.range (existing.length + 1),
        candidate_name fn i ∈ existing := by
      intro i hi
      have := List.find?_eq_none.mp hf i hi
      simpa using this
    have hnd : ((List.range (existing.length + 1)).map
        (candidate_name fn)).Nodup :=
      (List.nodup_range _).map (candidate_name_inj fn)
    have hsub : (List.range (existing.length + 1)).map (candidate_name fn) ⊆
        existing := by
      intro s hs
      simp only [List.mem_map] at hs
      obtain ⟨i, hi, rfl⟩ := hs
      exact hall i hi
    have hle := List.Subperm.length_le (List.subperm_of_subset hnd hsub)
    simp only [List.length_map, List.length_range] at hle
    omega

/-- C10: the target path of `write_edi_file` is always routed through the
unique-filename resolver, also when an explicit path is passed, so the
returned (and written) path never collides with an existing file. -/
theorem write_edi_file_target_unique (new_edi_fn edi_fn : Option String)
    (cwd_default : String) (existing : List String) :
    write_edi_file_target new_edi_fn edi_fn cwd_default existing ∉ existing ∧
    (∀ p : String,
      write_edi_file_target (some p) edi_fn cwd_default existing =
        make_unique_filename existing p) := by
  constructor
  · unfold write_edi_file_target
    exact make_unique_filename_fresh existing _
  · intro p
    rfl
